import Mathlib

/-!
Shallow embedding of `src/scriptPLE.py`, a converter from monthly accounting
workbooks to SUNAT PLE ledger text files, together with proofs of the claims
about its behaviour.

Modelling conventions:
* Python strings are modelled as `List Char` (`Str`); all character-level
  operations (strip, upper, replace) work on code points via `Char.toNat`.
  Python's whitespace set is modelled by its ASCII part.
* Spreadsheet cell values are modelled by `Cell`: `null` covers both `None`
  and float NaN (everything `pd.isna` accepts), `num` is a numeric cell
  (floats idealised as rationals), `str` a text cell.
* Python float values are modelled as `Option ℚ`: `none` models NaN
  (IEEE infinities are not modelled and are conflated with NaN; binary
  rounding of decimal literals is idealised away).
* `pd.to_datetime(..., errors="coerce")` is modelled as an `Option Date`
  field on the row: `none` is an unparseable date.
-/

set_option maxRecDepth 8000

/-- Python strings, modelled as lists of characters. -/
abbrev Str := List Char

/-- Coerce a Lean string literal to the `Str` model. -/
def strL (s : String) : Str := s.data

/-- Python's whitespace test (`str.strip` / `\s`), restricted to its ASCII
part: space, tab, newline, carriage return, vertical tab, form feed. -/
def isWS (c : Char) : Bool :=
  decide (c.toNat = 32 ∨ c.toNat = 9 ∨ c.toNat = 10 ∨ c.toNat = 13 ∨
    c.toNat = 11 ∨ c.toNat = 12)

/-- Python `str.strip()`: drop whitespace from both ends. -/
def pyStrip (l : Str) : Str :=
  ((l.dropWhile isWS).reverse.dropWhile isWS).reverse

/-- One character of `str.upper()` (ASCII part, as in the source data). -/
def upperC (c : Char) : Char :=
  if 97 ≤ c.toNat ∧ c.toNat ≤ 122 then Char.ofNat (c.toNat - 32) else c

/-- Python `str.upper()`. -/
def upperL (l : Str) : Str := l.map upperC

/-- One character of `str.lower()` (ASCII part). -/
def lowerC (c : Char) : Char :=
  if 65 ≤ c.toNat ∧ c.toNat ≤ 90 then Char.ofNat (c.toNat + 32) else c

/-- Python `str.lower()`. -/
def lowerL (l : Str) : Str := l.map lowerC

/-- The predicate kept by `str.replace(" ", "")`: every character that is
not a plain space (code point 32). -/
def notSpace (c : Char) : Bool := decide (c.toNat ≠ 32)

/-- Python `str.replace(" ", "")`: remove every space character. -/
def removeSpaces (l : Str) : Str := l.filter notSpace

/-- The character for decimal digit `d` (`'0'`–`'9'`). -/
def digitChar (d : ℕ) : Char := Char.ofNat (48 + d % 10)

/-- Decimal rendering of a natural number (Python `str` of a nonnegative
`int`), written with explicit fuel so that it reduces definitionally. -/
def natStrAux : ℕ → ℕ → Str
  | 0, _ => []
  | fuel + 1, n =>
    if n < 10 then [digitChar n]
    else natStrAux fuel (n / 10) ++ [digitChar (n % 10)]

/-- Decimal rendering of a natural number. -/
def natStr (n : ℕ) : Str := natStrAux (n + 1) n

/-- Python `str` of an `int` (possibly negative). -/
def intStr (i : ℤ) : Str :=
  if i < 0 then '-' :: natStr (-i).toNat else natStr i.toNat

/-- A spreadsheet cell as seen by the script: `null` is anything
`pd.isna` accepts (`None`, float NaN), `num` a numeric cell, `str` text. -/
inductive Cell where
  | null : Cell
  | num : ℚ → Cell
  | str : Str → Cell
deriving DecidableEq

/-- Python `str()` of a non-integral float.  Python prints a decimal
expansion; no claim depends on the exact rendering of this branch, so it is
modelled as the exact `num/den` form. -/
def floatRepr (q : ℚ) : Str := intStr q.num ++ '/' :: natStr q.den

/-- Python `str()` of a cell value: `str(nan) = "nan"`, `str()` of a
whole-valued float ends in `".0"`. -/
def pyStr (c : Cell) : Str :=
  match c with
  | Cell.null => strL "nan"
  | Cell.num q => if q.den = 1 then intStr q.num ++ strL ".0" else floatRepr q
  | Cell.str s => s

/-- The string clean-up `str(x).strip().replace(" ", "").upper()` used by
`normalizar_codigo` (src/scriptPLE.py line 50). -/
def cleanStr (l : Str) : Str := upperL (removeSpaces (pyStrip l))

/-- The function `normalizar_codigo` (src/scriptPLE.py lines 44-50): `""` for nulls, the
integer string for whole-valued floats, otherwise the trimmed,
space-stripped, upper-cased string form. -/
def normalizar_codigo (c : Cell) : Str :=
  match c with
  | Cell.null => []
  | Cell.num q => if q.den = 1 then intStr q.num else cleanStr (floatRepr q)
  | Cell.str s => cleanStr s

-- ---------------------------------------------------------------------
-- Character-level lemmas
-- ---------------------------------------------------------------------

theorem charOfNat_toNat (n : ℕ) (h : n < 0xd800) : (Char.ofNat n).toNat = n := by
  have hv : n.isValidChar := Or.inl h
  simp only [Char.ofNat, hv, dif_pos, Char.ofNatAux, Char.toNat, UInt32.toNat]
  simp [BitVec.toNat_ofNatLt]

theorem upperC_toNat (c : Char) :
    (upperC c).toNat =
      if 97 ≤ c.toNat ∧ c.toNat ≤ 122 then c.toNat - 32 else c.toNat := by
  unfold upperC
  split
  · rename_i h
    exact charOfNat_toNat _ (by omega)
  · rfl

theorem upperC_of_not_lower (c : Char) (h : ¬(97 ≤ c.toNat ∧ c.toNat ≤ 122)) :
    upperC c = c := by
  unfold upperC
  exact if_neg h

theorem upperC_idem (c : Char) : upperC (upperC c) = upperC c := by
  apply upperC_of_not_lower
  have h := upperC_toNat c
  by_cases hc : 97 ≤ c.toNat ∧ c.toNat ≤ 122 <;> simp [hc] at h <;> omega

theorem isWS_upperC (c : Char) : isWS (upperC c) = isWS c := by
  unfold isWS
  have h := upperC_toNat c
  by_cases hc : 97 ≤ c.toNat ∧ c.toNat ≤ 122 <;> simp [hc] at h <;>
    rw [h, decide_eq_decide] <;> constructor <;> intro <;> omega

theorem notSpace_upperC (c : Char) : notSpace (upperC c) = notSpace c := by
  unfold notSpace
  have h := upperC_toNat c
  by_cases hc : 97 ≤ c.toNat ∧ c.toNat ≤ 122 <;> simp [hc] at h <;>
    rw [h, decide_eq_decide] <;> constructor <;> intro <;> omega

-- ---------------------------------------------------------------------
-- Idempotence machinery for `cleanStr`
-- ---------------------------------------------------------------------

theorem dropWhile_idem (p : Char → Bool) (l : Str) :
    (l.dropWhile p).dropWhile p = l.dropWhile p := by
  induction l with
  | nil => rfl
  | cons c t ih =>
    by_cases h : p c
    · simp [List.dropWhile_cons, h, ih]
    · simp [List.dropWhile_cons, h]

theorem dropWhile_map_upperC (l : Str) :
    (l.map upperC).dropWhile isWS = (l.dropWhile isWS).map upperC := by
  induction l with
  | nil => rfl
  | cons c t ih =>
    by_cases h : isWS c
    · simp [List.dropWhile_cons, isWS_upperC, h, ih]
    · simp [List.dropWhile_cons, isWS_upperC, h]

theorem dropWhile_filter_notSpace (l : Str) :
    (l.filter notSpace).dropWhile isWS = (l.dropWhile isWS).filter notSpace := by
  induction l with
  | nil => rfl
  | cons c t ih =>
    by_cases hw : isWS c
    · by_cases hs : notSpace c
      · simp [List.filter_cons, hs, List.dropWhile_cons, hw, ih]
      · simp [List.filter_cons, hs, List.dropWhile_cons, hw, ih]
    · have hs : notSpace c = true := by
        unfold isWS at hw
        unfold notSpace
        simp only [decide_eq_true_eq] at *
        omega
      simp [List.filter_cons, hs, List.dropWhile_cons, hw]

theorem getLast?_dropWhile (p : Char → Bool) (l : Str) (h : l.dropWhile p ≠ []) :
    (l.dropWhile p).getLast? = l.getLast? := by
  induction l with
  | nil => simp at h
  | cons c t ih =>
    by_cases hc : p c
    · rw [List.dropWhile_cons, if_pos hc] at h ⊢
      rw [ih h, List.getLast?_cons]
      have ht : t ≠ [] := by
        intro he
        rw [he] at h
        simp at h
      rcases hx : t.getLast? with _ | x
      · exact absurd (List.getLast?_eq_none_iff.mp hx) ht
      · rfl
    · rw [List.dropWhile_cons, if_neg hc]

/-- The head of `dropWhile p` never satisfies `p`. -/
theorem head?_dropWhile_false (p : Char → Bool) (l : Str) (c : Char)
    (h : (l.dropWhile p).head? = some c) : p c = false := by
  have := List.head?_dropWhile_not p l
  rw [h] at this
  exact this

/-- If the head of a list fails `p`, `dropWhile p` keeps the list intact. -/
theorem dropWhile_of_head_false (p : Char → Bool) (l : Str)
    (h : ∀ c, l.head? = some c → p c = false) : l.dropWhile p = l := by
  cases l with
  | nil => rfl
  | cons c t =>
    rw [List.dropWhile_cons, if_neg]
    simp [h c rfl]

theorem pyStrip_idem (l : Str) : pyStrip (pyStrip l) = pyStrip l := by
  unfold pyStrip
  set w := l.dropWhile isWS with hw
  set z := w.reverse.dropWhile isWS with hz
  -- first: the reversed output needs no more right-stripping
  have hz1 : z.dropWhile isWS = z := by
    rw [hz]
    simp [dropWhile_idem]
  -- second: the output needs no more left-stripping
  have hz2 : z.reverse.dropWhile isWS = z.reverse := by
    apply dropWhile_of_head_false
    intro c hc
    rw [List.head?_reverse] at hc
    by_cases hze : z = []
    · rw [hze] at hc
      simp at hc
    · rw [hz, getLast?_dropWhile _ _ (by rw [← hz]; exact hze)] at hc
      rw [List.getLast?_reverse] at hc
      exact head?_dropWhile_false isWS l c hc
  rw [hz2, List.reverse_reverse, hz1]

theorem removeSpaces_pyStrip (l : Str) :
    pyStrip (removeSpaces l) = removeSpaces (pyStrip l) := by
  unfold pyStrip removeSpaces
  rw [dropWhile_filter_notSpace, ← List.filter_reverse, dropWhile_filter_notSpace,
    ← List.filter_reverse]

theorem upperL_pyStrip (l : Str) :
    pyStrip (upperL l) = upperL (pyStrip l) := by
  unfold pyStrip upperL
  rw [dropWhile_map_upperC, ← List.map_reverse, dropWhile_map_upperC, ← List.map_reverse]

theorem upperL_idem (l : Str) : upperL (upperL l) = upperL l := by
  unfold upperL
  rw [List.map_map]
  apply List.map_congr_left
  intro c _
  exact upperC_idem c

theorem removeSpaces_idem (l : Str) :
    removeSpaces (removeSpaces l) = removeSpaces l := by
  unfold removeSpaces
  rw [List.filter_filter]
  apply List.filter_congr
  intro c _
  cases h : notSpace c <;> simp [h]

theorem removeSpaces_upperL (l : Str) :
    removeSpaces (upperL l) = upperL (removeSpaces l) := by
  unfold removeSpaces upperL
  induction l with
  | nil => rfl
  | cons c t ih =>
    by_cases h : notSpace c
    · simp [List.filter_cons, notSpace_upperC, h, ih]
    · simp [List.filter_cons, notSpace_upperC, h, ih]

/-- The clean-up `cleanStr` is a projection: applying it twice changes nothing. -/
theorem cleanStr_idem (l : Str) : cleanStr (cleanStr l) = cleanStr l := by
  unfold cleanStr
  rw [upperL_pyStrip, removeSpaces_pyStrip, pyStrip_idem,
    removeSpaces_upperL, removeSpaces_idem, upperL_idem]

theorem digitChar_toNat (d : ℕ) : (digitChar d).toNat = 48 + d % 10 := by
  have h : d % 10 < 10 := Nat.mod_lt _ (by omega)
  exact charOfNat_toNat _ (by omega)

theorem natStrAux_chars (fuel n : ℕ) (c : Char) (h : c ∈ natStrAux fuel n) :
    48 ≤ c.toNat ∧ c.toNat ≤ 57 := by
  induction fuel generalizing n with
  | zero => simp [natStrAux] at h
  | succ fuel ih =>
    rw [natStrAux] at h
    split at h
    · simp at h
      subst h
      have := digitChar_toNat n
      omega
    · rw [List.mem_append] at h
      rcases h with h | h
      · exact ih _ h
      · simp at h
        subst h
        have := digitChar_toNat (n % 10)
        omega

theorem intStr_chars (i : ℤ) (c : Char) (h : c ∈ intStr i) :
    45 ≤ c.toNat ∧ c.toNat ≤ 57 := by
  unfold intStr at h
  split at h
  · rcases h with _ | ⟨_, h⟩
    · constructor <;> decide
    · have := natStrAux_chars _ _ _ h
      omega
  · have := natStrAux_chars _ _ _ h
    omega

/-- The clean-up `cleanStr` does not touch a string whose characters are all printable,
non-space, non-lowercase. -/
theorem cleanStr_of_chars (l : Str)
    (h : ∀ c ∈ l, isWS c = false ∧ notSpace c = true ∧ ¬(97 ≤ c.toNat ∧ c.toNat ≤ 122)) :
    cleanStr l = l := by
  unfold cleanStr
  have hdw : ∀ m : Str, (∀ c ∈ m, isWS c = false) → m.dropWhile isWS = m := by
    intro m hm
    cases m with
    | nil => rfl
    | cons a t =>
      rw [List.dropWhile_cons, if_neg]
      simp [hm a (by simp)]
  have hstrip : pyStrip l = l := by
    unfold pyStrip
    rw [hdw l (fun c hc => (h c hc).1)]
    rw [hdw l.reverse (fun c hc => (h c (List.mem_reverse.mp hc)).1), List.reverse_reverse]
  rw [hstrip]
  have hfil : removeSpaces l = l := by
    unfold removeSpaces
    apply List.filter_eq_self.mpr
    intro c hc
    exact (h c hc).2.1
  rw [hfil]
  unfold upperL
  have : l.map upperC = l.map id := by
    apply List.map_congr_left
    intro c hc
    exact upperC_of_not_lower c (h c hc).2.2
  rw [this, List.map_id]

theorem cleanStr_intStr (i : ℤ) : cleanStr (intStr i) = intStr i := by
  apply cleanStr_of_chars
  intro c hc
  have := intStr_chars i c hc
  refine ⟨?_, ?_, ?_⟩
  · unfold isWS
    simp only [decide_eq_false_iff_not]
    omega
  · unfold notSpace
    simp only [decide_eq_true_eq]
    omega
  · omega

/-- Claim C9: the account-code normaliser is idempotent — feeding its own
output (a Python string) back in returns it unchanged. -/
theorem claim_C9 (x : Cell) :
    normalizar_codigo (Cell.str (normalizar_codigo x)) = normalizar_codigo x := by
  cases x with
  | null => rfl
  | num q =>
    show cleanStr (normalizar_codigo (Cell.num q)) = normalizar_codigo (Cell.num q)
    by_cases hq : q.den = 1
    · rw [show normalizar_codigo (Cell.num q) = intStr q.num by
        simp [normalizar_codigo, hq]]
      exact cleanStr_intStr q.num
    · rw [show normalizar_codigo (Cell.num q) = cleanStr (floatRepr q) by
        simp [normalizar_codigo, hq]]
      exact cleanStr_idem _
  | str s => exact cleanStr_idem s

-- ---------------------------------------------------------------------
-- Reference parser (src/scriptPLE.py lines 71-95)
-- ---------------------------------------------------------------------

/-- Digits `[0-9]`. -/
def isDigitC (c : Char) : Bool := decide (48 ≤ c.toNat ∧ c.toNat ≤ 57)

/-- Letters `[A-Z]`. -/
def isUpperAZ (c : Char) : Bool := decide (65 ≤ c.toNat ∧ c.toNat ≤ 90)

/-- Characters `[A-Z0-9]`. -/
def isAlnumUC (c : Char) : Bool := isUpperAZ c || isDigitC c

/-- Not a hyphen (code point 45). -/
def notHyphen (c : Char) : Bool := decide (c.toNat ≠ 45)

/-- Python `lstrip("0") or "0"`: strip leading zeros, falling back to `"0"` when
everything was a zero. -/
def lstripZeros (l : Str) : Str :=
  match l.dropWhile (fun c => decide (c.toNat = 48)) with
  | [] => strL "0"
  | r => r

/-- The normalisation `ref.replace("/", "-").replace(" ", "-")`. -/
def replaceSep (l : Str) : Str :=
  l.map (fun c => if c.toNat = 47 ∨ c.toNat = 32 then '-' else c)

/-- The regex `^([A-Z0-9]{1,10})-(\d{1,20})$` of `parse_doc`.  Group 1
cannot contain a hyphen, so an anchored match necessarily splits the string
at its first hyphen; the match is modelled by that split plus the
length/character-class checks. -/
def pat1 (l : Str) : Option (Str × Str) :=
  let a := l.takeWhile notHyphen
  let b := l.dropWhile notHyphen
  match b with
  | [] => none
  | _ :: rest =>
    if 1 ≤ a.length ∧ a.length ≤ 10 ∧ a.all isAlnumUC ∧
        1 ≤ rest.length ∧ rest.length ≤ 20 ∧ rest.all isDigitC
    then some (a, rest) else none

/-- The regex `^([A-Z]{1}\d{3})(\d{1,20})$` of `parse_doc`: group 1 has
fixed width four. -/
def pat2 (l : Str) : Option (Str × Str) :=
  match l with
  | c0 :: c1 :: c2 :: c3 :: rest =>
    if isUpperAZ c0 ∧ isDigitC c1 ∧ isDigitC c2 ∧ isDigitC c3 ∧
        1 ≤ rest.length ∧ rest.length ≤ 20 ∧ rest.all isDigitC
    then some ([c0, c1, c2, c3], rest) else none
  | _ => none

/-- Python `str.isdigit` (ASCII digits). -/
def pyIsdigit (l : Str) : Bool := decide (l ≠ []) && l.all isDigitC

/-- The function `parse_doc` (src/scriptPLE.py lines 71-95): extract a document series
and number from a reference cell. -/
def parse_doc (c : Cell) : Str × Str :=
  match c with
  | Cell.null => ([], [])
  | _ =>
    let ref0 := upperL (pyStrip (pyStr c))
    if ref0 = [] then ([], [])
    else
      let ref := replaceSep ref0
      match pat1 ref with
      | some (s, n) => (s, lstripZeros n)
      | none =>
        match pat2 ref with
        | some (s, n) => (s, lstripZeros n)
        | none =>
          if pyIsdigit ref then ([], lstripZeros ref) else ([], strL "0")

/-- Python `str.startswith`. -/
def pyStartsWith (pre s : Str) : Bool := pre.isPrefixOf s

/-- Document-type inference from the parsed series
(src/scriptPLE.py lines 257-264). -/
def tipoComprobante (serie : Str) : Str :=
  if pyStartsWith (strL "F") serie then strL "01"
  else if pyStartsWith (strL "B") serie then strL "03"
  else if pyStartsWith (strL "T") serie then strL "12"
  else strL "00"

theorem takeWhile_append_all (p : Char → Bool) (xs ys : Str) (y : Char)
    (hxs : ∀ c ∈ xs, p c = true) (hy : p y = false) :
    (xs ++ y :: ys).takeWhile p = xs := by
  induction xs with
  | nil => simp [List.takeWhile_cons, hy]
  | cons a t ih =>
    rw [List.cons_append, List.takeWhile_cons, if_pos (hxs a (by simp))]
    rw [ih (fun c hc => hxs c (by simp [hc]))]

theorem dropWhile_append_all (p : Char → Bool) (xs ys : Str) (y : Char)
    (hxs : ∀ c ∈ xs, p c = true) (hy : p y = false) :
    (xs ++ y :: ys).dropWhile p = y :: ys := by
  induction xs with
  | nil => simp [List.dropWhile_cons, hy]
  | cons a t ih =>
    rw [List.cons_append, List.dropWhile_cons, if_pos (hxs a (by simp))]
    exact ih (fun c hc => hxs c (by simp [hc]))

theorem pat1_split (series num : Str)
    (h1 : 1 ≤ series.length) (h2 : series.length ≤ 10)
    (h3 : series.all isAlnumUC = true)
    (h4 : 1 ≤ num.length) (h5 : num.length ≤ 20)
    (h6 : num.all isDigitC = true) :
    pat1 (series ++ '-' :: num) = some (series, num) := by
  have hal : ∀ c ∈ series, notHyphen c = true := by
    intro c hc
    have := (List.all_eq_true.mp h3) c hc
    unfold isAlnumUC isUpperAZ isDigitC at this
    unfold notHyphen
    simp only [Bool.or_eq_true, decide_eq_true_eq] at *
    omega
  have hhy : notHyphen '-' = false := by decide
  unfold pat1
  rw [takeWhile_append_all _ _ _ _ hal hhy, dropWhile_append_all _ _ _ _ hal hhy]
  simp only
  rw [if_pos]
  exact ⟨h1, h2, h3, h4, h5, h6⟩

/-- Claim C4: a reference string whose normalised form matches
`SERIES-NUMBER` (1-10 upper-case alphanumerics, hyphen, 1-20 digits) parses
to that series and the number with leading zeros stripped; an `F`-series
reference yields document type `"01"`.  The hyphenated pattern is tried
before the compact one, and the two are mutually exclusive (the compact
pattern admits no hyphen), so the hyphenated result always governs. -/
theorem claim_C4 (s series num : Str)
    (h1 : 1 ≤ series.length) (h2 : series.length ≤ 10)
    (h3 : series.all isAlnumUC = true)
    (h4 : 1 ≤ num.length) (h5 : num.length ≤ 20)
    (h6 : num.all isDigitC = true)
    (h7 : replaceSep (upperL (pyStrip s)) = series ++ '-' :: num) :
    parse_doc (Cell.str s) = (series, lstripZeros num) ∧
    (series.head? = some 'F' → tipoComprobante series = strL "01") := by
  constructor
  · have hne : ¬(upperL (pyStrip s) = []) := by
      intro h0
      rw [h0] at h7
      have := congrArg List.length h7
      simp [replaceSep] at this
      omega
    show parse_doc (Cell.str s) = _
    unfold parse_doc
    simp only [pyStr]
    rw [if_neg hne, h7, pat1_split series num h1 h2 h3 h4 h5 h6]
  · intro hF
    cases series with
    | nil => simp at hF
    | cons c t =>
      simp at hF
      subst hF
      unfold tipoComprobante pyStartsWith
      rw [if_pos]
      simp [strL, List.isPrefixOf]

/-- Witness for C4 at the spec's end-to-end scenario `"F001-5068"`. -/
theorem claim_C4_witness :
    parse_doc (Cell.str (strL "F001-5068")) = (strL "F001", strL "5068") ∧
    tipoComprobante (strL "F001") = strL "01" := by
  have h := claim_C4 (strL "F001-5068") (strL "F001") (strL "5068")
    (by decide) (by decide) (by decide) (by decide) (by decide) (by decide) (by decide)
  refine ⟨?_, h.2 (by decide)⟩
  rw [h.1]
  decide

-- ---------------------------------------------------------------------
-- Python floats (`Option ℚ`; `none` is NaN) and number parsing/formatting
-- ---------------------------------------------------------------------

/-- Python `abs` on a float: `abs(nan) = nan`. -/
def fabs (v : Option ℚ) : Option ℚ := v.map (fun q => if q < 0 then -q else q)

/-- The test `v > 0` on a Python float: false for NaN. -/
def fgt0 (v : Option ℚ) : Bool :=
  match v with
  | none => false
  | some q => decide (0 < q)

/-- The test `v >= 0` on a Python float: false for NaN. -/
def fge0 (v : Option ℚ) : Bool :=
  match v with
  | none => false
  | some q => decide (0 ≤ q)

/-- Value of a digit string read in base 10. -/
def digitsToNat (l : Str) : ℕ := l.foldl (fun a c => a * 10 + (c.toNat - 48)) 0

/-- Exponent part of a float literal: optional sign then 1+ digits. -/
def parseExp (l : Str) : Option ℤ :=
  let sr : ℤ × Str :=
    match l with
    | '+' :: r => (1, r)
    | '-' :: r => (-1, r)
    | r => (1, r)
  if sr.2 ≠ [] ∧ sr.2.all isDigitC then some (sr.1 * digitsToNat sr.2) else none

/-- Python `float(string)` — `Except.error` models `ValueError`.  Handles
sign, decimal point, exponent and (case-insensitively) the special words,
conflating infinities with NaN; digit-group underscores are not modelled.
The decimal value is taken exactly instead of being rounded to binary. -/
def pyFloatStr (s : Str) : Except Unit (Option ℚ) :=
  let t := pyStrip s
  let nt : Bool × Str :=
    match t with
    | '+' :: r => (false, r)
    | '-' :: r => (true, r)
    | r => (false, r)
  let neg := nt.1
  let t1 := nt.2
  let u := upperL t1
  if u = strL "NAN" ∨ u = strL "INF" ∨ u = strL "INFINITY" then Except.ok none
  else
    let ip := t1.takeWhile isDigitC
    let rest := t1.dropWhile isDigitC
    let fr : Str × Str :=
      match rest with
      | '.' :: r => (r.takeWhile isDigitC, r.dropWhile isDigitC)
      | r => ([], r)
    let fp := fr.1
    let rest2 := fr.2
    if ip.length + fp.length = 0 then Except.error ()
    else
      let mant : ℚ := (digitsToNat (ip ++ fp) : ℚ) / (10 : ℚ) ^ fp.length
      let sm : ℚ := if neg then -mant else mant
      match rest2 with
      | [] => Except.ok (some sm)
      | e :: r =>
        if e.toNat = 101 ∨ e.toNat = 69 then
          match parseExp r with
          | some ex => Except.ok (some (sm * (10 : ℚ) ^ ex))
          | none => Except.error ()
        else Except.error ()

/-- Python `float()` on a cell value: NaN cells give NaN, numeric cells
their value, strings are parsed. -/
def pyFloatCell (c : Cell) : Except Unit (Option ℚ) :=
  match c with
  | Cell.null => Except.ok none
  | Cell.num q => Except.ok (some q)
  | Cell.str s => pyFloatStr s

/-- The amount resolution of `procesar_excel` (src/scriptPLE.py lines
228-231): `float(...)`, with `ValueError` caught and replaced by `0.0`. -/
def montoOf (c : Cell) : Option ℚ :=
  match pyFloatCell c with
  | Except.ok v => v
  | Except.error _ => some 0

/-- The number of cents in `num/den` (`den > 0`), rounded half to even
(Python's float formatting rounding, on the idealised rational value);
written on the numerator/denominator so that the kernel can evaluate it. -/
def roundCentsHE (num : ℤ) (den : ℕ) : ℤ :=
  let a := 100 * num
  let d : ℤ := (den : ℤ)
  let n := a.ediv d
  let rem2 := 2 * (a - n * d)
  if rem2 < d then n
  else if d < rem2 then n + 1
  else if n % 2 = 0 then n else n + 1

/-- Two-digit zero-padded decimal (`f"{n:02d}"`). -/
def pad2 (n : ℕ) : Str := if n < 10 then '0' :: natStr n else natStr n

/-- Three-digit zero-padded decimal (`f"{n:03d}"`). -/
def pad3 (n : ℕ) : Str :=
  if n < 10 then '0' :: '0' :: natStr n
  else if n < 100 then '0' :: natStr n
  else natStr n

/-- Four-digit zero-padded decimal (`strftime("%Y")`). -/
def pad4 (n : ℕ) : Str :=
  if n < 10 then '0' :: '0' :: '0' :: natStr n
  else if n < 100 then '0' :: '0' :: natStr n
  else if n < 1000 then '0' :: natStr n
  else natStr n

/-- Python `f"{q:.2f}"` for a nonnegative rational. -/
def fmtQ2abs (q : ℚ) : Str :=
  let n := (roundCentsHE q.num q.den).toNat
  natStr (n / 100) ++ '.' :: pad2 (n % 100)

/-- Python `f"{q:.2f}"`. -/
def fmtQ2 (q : ℚ) : Str := if q < 0 then '-' :: fmtQ2abs (-q) else fmtQ2abs q

/-- Python `f"{x:.2f}"` on a float; formatting NaN prints `"nan"`. -/
def fmtF (v : Option ℚ) : Str :=
  match v with
  | none => strL "nan"
  | some q => fmtQ2 q

-- ---------------------------------------------------------------------
-- Dates and the period/status classifier (src/scriptPLE.py lines 196-225)
-- ---------------------------------------------------------------------

/-- A parsed calendar date (the result of a successful
`pd.to_datetime`). -/
structure Date where
  year : ℕ
  month : ℕ
  day : ℕ
deriving DecidableEq

/-- Leap-year test (Gregorian), as in `calendar.monthrange`. -/
def bisiesto (y : ℕ) : Bool := decide (y % 4 = 0 ∧ (y % 100 ≠ 0 ∨ y % 400 = 0))

/-- The function `ultimo_dia_mes` (src/scriptPLE.py lines 39-41): last calendar day of
the month. -/
def ultimo_dia_mes (anno mes : ℕ) : ℕ :=
  if mes = 2 then (if bisiesto anno then 29 else 28)
  else if mes = 4 ∨ mes = 6 ∨ mes = 9 ∨ mes = 11 then 30
  else 31

/-- Python `strftime("%d/%m/%Y")`. -/
def fmtDMY (d : Date) : Str := pad2 d.day ++ '/' :: pad2 d.month ++ '/' :: pad4 d.year

/-- The string `fecha_target_str` (src/scriptPLE.py line 199): the last day of the
reporting month, displayed `dd/mm/yyyy`. -/
def fechaTarget (anio mes : ℕ) : Str :=
  pad2 (ultimo_dia_mes anio mes) ++ '/' :: pad2 mes ++ '/' :: natStr anio

/-- The string `periodo_diario` (src/scriptPLE.py line 174): the declared reporting
period `YYYYMM00`. -/
def periodoDiario (anio mes : ℕ) : Str := natStr anio ++ pad2 mes ++ strL "00"

/-- The per-line period/date/status classification
(src/scriptPLE.py lines 196-225).  Returns
`(periodo_linea, fecha_str, estado)`. -/
def clasificar (anio mes : ℕ) (fecha : Option Date) : Str × Str × Str :=
  match fecha with
  | none => (periodoDiario anio mes, fechaTarget anio mes, strL "1")
  | some d =>
    if d.year = anio then
      if d.month < mes then
        (natStr anio ++ pad2 d.month ++ strL "00", fmtDMY d, strL "8")
      else if d.month = mes then (periodoDiario anio mes, fmtDMY d, strL "1")
      else (periodoDiario anio mes, fechaTarget anio mes, strL "1")
    else if d.year < anio then
      (natStr d.year ++ pad2 d.month ++ strL "00", fmtDMY d, strL "8")
    else (periodoDiario anio mes, fechaTarget anio mes, strL "1")

-- ---------------------------------------------------------------------
-- The entry assembler (src/scriptPLE.py lines 180-293)
-- ---------------------------------------------------------------------

/-- One general-ledger transaction row, carrying the cells of the resolved
semantic columns.  `fecha` is the result of
`pd.to_datetime(..., errors="coerce")`: `none` when unparseable. -/
structure DiarioRow where
  cuenta : Cell
  fecha : Option Date
  glosa : Cell
  monto : Cell
  jnum : Cell
  jtype : Cell
  flag : Cell
  currency : Cell
  refdoc : Cell
deriving DecidableEq

/-- The sign-based debit/credit split (src/scriptPLE.py lines 240, 242):
positive amounts to the debit side, otherwise the magnitude to credit. -/
def signSplit (m : Option ℚ) : Option ℚ × Option ℚ :=
  if fgt0 m then (m, some 0) else (some 0, fabs m)

/-- Debit/credit resolution (src/scriptPLE.py lines 233-242): a `D`/`C`
indicator, when the column exists, forces the side; otherwise the sign
decides. -/
def resolveDH (hasFlag : Bool) (flag : Cell) (m : Option ℚ) : Option ℚ × Option ℚ :=
  if hasFlag then
    let f := upperL (pyStrip (pyStr flag))
    if pyStartsWith (strL "D") f then (fabs m, some 0)
    else if pyStartsWith (strL "C") f then (some 0, fabs m)
    else signSplit m
  else signSplit m

/-- Currency resolution (src/scriptPLE.py lines 245-253). -/
def monedaOf (hasCurrency : Bool) (c : Cell) : Str :=
  if hasCurrency then
    let v := upperL (pyStrip (pyStr c))
    if pyStartsWith (strL "USD") v then strL "USD"
    else if pyStartsWith (strL "PEN") v || pyStartsWith (strL "SOL") v then strL "PEN"
    else if v ≠ [] then v.take 3
    else strL "PEN"
  else strL "PEN"

/-- Python `str.rstrip(".0")`: remove every trailing character that is a
dot or a zero. -/
def rstripDotZero (l : Str) : Str :=
  (l.reverse.dropWhile (fun c => decide (c.toNat = 46 ∨ c.toNat = 48))).reverse

/-- The journal-number part of the correlative
(src/scriptPLE.py lines 192-193): empty for a null cell, otherwise the
cell's string form right-stripped of `'.'` and `'0'`. -/
def jnumSuffix (c : Cell) : Str :=
  match c with
  | Cell.null => []
  | _ => rstripDotZero (pyStr c)

/-- The fully assembled 21-field journal line
(src/scriptPLE.py lines 185-293), for a row that passed the account
filter.  `cuenta` is the normalised account code, `cuo` the journal-group
identifier built by the caller's per-type counter. -/
def assembleLine (anio mes : ℕ) (hasFlag hasCurrency hasRef : Bool)
    (cuenta cuo : Str) (r : DiarioRow) : List Str :=
  let cl := clasificar anio mes r.fecha
  let dh := resolveDH hasFlag r.flag (montoOf r.monto)
  let moneda := monedaOf hasCurrency r.currency
  let sd := if hasRef then parse_doc r.refdoc else ([], [])
  let tipoCmp := tipoComprobante sd.1
  let numDoc := if tipoCmp ≠ strL "00" ∧ sd.2 = [] then strL "0" else sd.2
  let glosaVal := pyStrip (pyStr r.glosa)
  let correlativo := 'M' :: jnumSuffix r.jnum
  [cl.1, cuo, correlativo, cuenta, [], [], moneda, [], [], tipoCmp, sd.1,
    numDoc, [], [], cl.2.1, glosaVal, [], fmtF dh.1, fmtF dh.2, [], cl.2.2]

-- ---------------------------------------------------------------------
-- Sample rows used by witnesses and counterexamples
-- ---------------------------------------------------------------------

/-- A row dated January against a March reporting period. -/
def rowEnero : DiarioRow :=
  ⟨Cell.str (strL "60"), some ⟨2020, 1, 15⟩, Cell.str [], Cell.num 0,
    Cell.null, Cell.str [], Cell.null, Cell.null, Cell.null⟩

/-- A row dated May against a March reporting period. -/
def rowMayo : DiarioRow :=
  ⟨Cell.str (strL "60"), some ⟨2020, 5, 10⟩, Cell.str [], Cell.num 0,
    Cell.null, Cell.str [], Cell.null, Cell.null, Cell.null⟩

/-- A row whose journal-number cell holds the float `100.0`. -/
def rowCien : DiarioRow :=
  ⟨Cell.str (strL "60"), none, Cell.str [], Cell.num 0,
    Cell.num 100, Cell.str [], Cell.null, Cell.null, Cell.null⟩

/-- A row with a plain numeric amount `5`. -/
def rowCinco : DiarioRow :=
  ⟨Cell.str (strL "60"), none, Cell.str [], Cell.num 5,
    Cell.null, Cell.str [], Cell.null, Cell.null, Cell.null⟩

/-- A row whose amount cell is empty (NaN) and whose text amount column
carries no debit/credit indicator. -/
def rowNaN : DiarioRow :=
  ⟨Cell.str (strL "60"), none, Cell.str [], Cell.null,
    Cell.null, Cell.str [], Cell.null, Cell.null, Cell.null⟩

/-- A 201-character description. -/
def glosa201 : Str := List.replicate 201 'A'

/-- A row carrying the 201-character description. -/
def rowGlosa : DiarioRow :=
  ⟨Cell.str (strL "60"), none, Cell.str glosa201, Cell.num 0,
    Cell.null, Cell.str [], Cell.null, Cell.null, Cell.null⟩

/-- The spec's description rule, from its words: truncate the free text to
at most 200 characters. -/
def specTruncate200 (l : Str) : Str := l.take 200

-- ---------------------------------------------------------------------
-- Claim C1: period/status classification for same-year dates
-- ---------------------------------------------------------------------

/-- Claim C1: a row dated in the reporting year strictly before the
reporting month is emitted with status `"8"`, the earlier month as
`YYYYMM00` period and the actual date; one dated strictly after the
reporting month keeps status `"1"`, the declared period and the last day
of the reporting month as display date. -/
theorem claim_C1 (anio mes : ℕ) (hasFlag hasCurrency hasRef : Bool)
    (cuenta cuo : Str) (r : DiarioRow) (d : Date)
    (hf : r.fecha = some d) (hy : d.year = anio) :
    (d.month < mes →
      (assembleLine anio mes hasFlag hasCurrency hasRef cuenta cuo r).get? 20 =
          some (strL "8") ∧
      (assembleLine anio mes hasFlag hasCurrency hasRef cuenta cuo r).get? 0 =
          some (natStr anio ++ pad2 d.month ++ strL "00") ∧
      (assembleLine anio mes hasFlag hasCurrency hasRef cuenta cuo r).get? 14 =
          some (fmtDMY d)) ∧
    (mes < d.month →
      (assembleLine anio mes hasFlag hasCurrency hasRef cuenta cuo r).get? 20 =
          some (strL "1") ∧
      (assembleLine anio mes hasFlag hasCurrency hasRef cuenta cuo r).get? 0 =
          some (periodoDiario anio mes) ∧
      (assembleLine anio mes hasFlag hasCurrency hasRef cuenta cuo r).get? 14 =
          some (fechaTarget anio mes)) := by
  have h0 : (assembleLine anio mes hasFlag hasCurrency hasRef cuenta cuo r).get? 0 =
      some (clasificar anio mes r.fecha).1 := rfl
  have h14 : (assembleLine anio mes hasFlag hasCurrency hasRef cuenta cuo r).get? 14 =
      some (clasificar anio mes r.fecha).2.1 := rfl
  have h20 : (assembleLine anio mes hasFlag hasCurrency hasRef cuenta cuo r).get? 20 =
      some (clasificar anio mes r.fecha).2.2 := rfl
  rw [hf] at h0 h14 h20
  constructor
  · intro hlt
    have hc : clasificar anio mes (some d) =
        (natStr anio ++ pad2 d.month ++ strL "00", fmtDMY d, strL "8") := by
      simp only [clasificar]
      rw [if_pos hy, if_pos hlt]
    rw [hc] at h0 h14 h20
    exact ⟨h20, h0, h14⟩
  · intro hgt
    have hc : clasificar anio mes (some d) =
        (periodoDiario anio mes, fechaTarget anio mes, strL "1") := by
      simp only [clasificar]
      rw [if_pos hy, if_neg (by omega : ¬ d.month < mes),
        if_neg (by omega : ¬ d.month = mes)]
    rw [hc] at h0 h14 h20
    exact ⟨h20, h0, h14⟩

/-- Witness for C1: January and May rows against a March 2020 period. -/
theorem claim_C1_witness :
    ((assembleLine 2020 3 false false false (strL "60") (strL "X") rowEnero).get? 20 =
        some (strL "8") ∧
      (assembleLine 2020 3 false false false (strL "60") (strL "X") rowEnero).get? 0 =
        some (natStr 2020 ++ pad2 1 ++ strL "00") ∧
      (assembleLine 2020 3 false false false (strL "60") (strL "X") rowEnero).get? 14 =
        some (fmtDMY ⟨2020, 1, 15⟩)) ∧
    ((assembleLine 2020 3 false false false (strL "60") (strL "X") rowMayo).get? 20 =
        some (strL "1") ∧
      (assembleLine 2020 3 false false false (strL "60") (strL "X") rowMayo).get? 0 =
        some (periodoDiario 2020 3) ∧
      (assembleLine 2020 3 false false false (strL "60") (strL "X") rowMayo).get? 14 =
        some (fechaTarget 2020 3)) :=
  ⟨(claim_C1 2020 3 false false false (strL "60") (strL "X") rowEnero ⟨2020, 1, 15⟩
      rfl rfl).1 (by decide),
    (claim_C1 2020 3 false false false (strL "60") (strL "X") rowMayo ⟨2020, 5, 10⟩
      rfl rfl).2 (by decide)⟩

-- ---------------------------------------------------------------------
-- Claim C5: debit/credit split
-- ---------------------------------------------------------------------

theorem resolveDH_some (hasFlag : Bool) (fl : Cell) (q : ℚ) :
    ∃ db cr : ℚ, resolveDH hasFlag fl (some q) = (some db, some cr) ∧
      0 ≤ db ∧ 0 ≤ cr ∧ (db = 0 ∨ cr = 0) ∧
      (q = 0 → db = 0 ∧ cr = 0) ∧ (q ≠ 0 → (db ≠ 0 ∨ cr ≠ 0)) := by
  have habs : ∀ z : ℚ, fabs (some z) = some (if z < 0 then -z else z) := fun z => rfl
  have habs0 : (0 : ℚ) ≤ (if (q : ℚ) < 0 then -q else q) := by
    split <;> linarith
  have habsne : q ≠ 0 → (if (q : ℚ) < 0 then -q else q) ≠ 0 := by
    intro h
    split <;> intro h0 <;> [exact h (by linarith); exact h h0]
  have habsz : q = 0 → (if (q : ℚ) < 0 then -q else q) = 0 := by
    intro h
    subst h
    norm_num
  unfold resolveDH signSplit
  by_cases hflag : hasFlag = true
  · rw [if_pos hflag]
    by_cases hD : pyStartsWith (strL "D") (upperL (pyStrip (pyStr fl))) = true
    · rw [if_pos hD, habs]
      exact ⟨_, 0, rfl, habs0, le_refl 0, Or.inr rfl,
        fun h => ⟨habsz h, rfl⟩, fun h => Or.inl (habsne h)⟩
    · rw [if_neg hD]
      by_cases hC : pyStartsWith (strL "C") (upperL (pyStrip (pyStr fl))) = true
      · rw [if_pos hC, habs]
        exact ⟨0, _, rfl, le_refl 0, habs0, Or.inl rfl,
          fun h => ⟨rfl, habsz h⟩, fun h => Or.inr (habsne h)⟩
      · rw [if_neg hC]
        by_cases hgt : fgt0 (some q) = true
        · rw [if_pos hgt]
          have hq : 0 < q := by
            unfold fgt0 at hgt
            exact of_decide_eq_true hgt
          exact ⟨q, 0, rfl, le_of_lt hq, le_refl 0, Or.inr rfl,
            fun h => absurd h (by linarith), fun _ => Or.inl (by linarith)⟩
        · rw [if_neg hgt, habs]
          exact ⟨0, _, rfl, le_refl 0, habs0, Or.inl rfl,
            fun h => ⟨rfl, habsz h⟩, fun h => Or.inr (habsne h)⟩
  · rw [if_neg hflag]
    by_cases hgt : fgt0 (some q) = true
    · rw [if_pos hgt]
      have hq : 0 < q := by
        unfold fgt0 at hgt
        exact of_decide_eq_true hgt
      exact ⟨q, 0, rfl, le_of_lt hq, le_refl 0, Or.inr rfl,
        fun h => absurd h (by linarith), fun _ => Or.inl (by linarith)⟩
    · rw [if_neg hgt, habs]
      exact ⟨0, _, rfl, le_refl 0, habs0, Or.inl rfl,
        fun h => ⟨rfl, habsz h⟩, fun h => Or.inr (habsne h)⟩

/-- Claim C5 (amended): for a row whose amount cell resolves to an actual
number (NaN excluded), debit and credit are both numeric and nonnegative,
never both nonzero, and both zero exactly when the amount is zero. -/
theorem claim_C5_amended (anio mes : ℕ) (hasFlag hasCurrency hasRef : Bool)
    (cuenta cuo : Str) (r : DiarioRow) (q : ℚ)
    (hq : montoOf r.monto = some q) :
    ∃ db cr : ℚ,
      resolveDH hasFlag r.flag (montoOf r.monto) = (some db, some cr) ∧
      (assembleLine anio mes hasFlag hasCurrency hasRef cuenta cuo r).get? 17 =
        some (fmtF (some db)) ∧
      (assembleLine anio mes hasFlag hasCurrency hasRef cuenta cuo r).get? 18 =
        some (fmtF (some cr)) ∧
      0 ≤ db ∧ 0 ≤ cr ∧ (db = 0 ∨ cr = 0) ∧
      (q = 0 → db = 0 ∧ cr = 0) ∧ (q ≠ 0 → (db ≠ 0 ∨ cr ≠ 0)) := by
  obtain ⟨db, cr, h1, h2, h3, h4, h5, h6⟩ := resolveDH_some hasFlag r.flag q
  rw [← hq] at h1
  refine ⟨db, cr, h1, ?_, ?_, h2, h3, h4, h5, h6⟩
  · have h17 : (assembleLine anio mes hasFlag hasCurrency hasRef cuenta cuo r).get? 17 =
        some (fmtF (resolveDH hasFlag r.flag (montoOf r.monto)).1) := rfl
    rw [h17, h1]
  · have h18 : (assembleLine anio mes hasFlag hasCurrency hasRef cuenta cuo r).get? 18 =
        some (fmtF (resolveDH hasFlag r.flag (montoOf r.monto)).2) := rfl
    rw [h18, h1]

/-- Witness for the amended C5 at a numeric amount of 5. -/
theorem claim_C5_amended_witness :
    ∃ db cr : ℚ,
      resolveDH false rowCinco.flag (montoOf rowCinco.monto) = (some db, some cr) ∧
      (assembleLine 2020 3 false false false (strL "60") (strL "X") rowCinco).get? 17 =
        some (fmtF (some db)) ∧
      (assembleLine 2020 3 false false false (strL "60") (strL "X") rowCinco).get? 18 =
        some (fmtF (some cr)) ∧
      0 ≤ db ∧ 0 ≤ cr ∧ (db = 0 ∨ cr = 0) ∧
      ((5 : ℚ) = 0 → db = 0 ∧ cr = 0) ∧ ((5 : ℚ) ≠ 0 → (db ≠ 0 ∨ cr ≠ 0)) :=
  claim_C5_amended 2020 3 false false false (strL "60") (strL "X") rowCinco 5 rfl

/-- Counterexample to C5 as stated: an empty (NaN) amount cell passes
through `float(nan)` untouched, so the credit side of the emitted line is
NaN — rendered `"nan"` — which is not a nonnegative amount. -/
theorem claim_C5_cex :
    resolveDH false Cell.null (montoOf Cell.null) = (some 0, none) ∧
    fge0 (resolveDH false Cell.null (montoOf Cell.null)).2 = false ∧
    (assembleLine 2020 3 false false false (strL "60") (strL "X") rowNaN).get? 18 =
      some (strL "nan") := by
  refine ⟨rfl, rfl, ?_⟩
  decide

-- ---------------------------------------------------------------------
-- Claim C6: unparseable amounts fall back to zero
-- ---------------------------------------------------------------------

/-- Claim C6: a row whose amount cell is a string that `float()` rejects
still produces a line, with the amount taken as 0 and both sides printed
`"0.00"`. -/
theorem claim_C6 (anio mes : ℕ) (hasFlag hasCurrency hasRef : Bool)
    (cuenta cuo : Str) (r : DiarioRow) (s : Str)
    (hm : r.monto = Cell.str s) (hp : pyFloatStr s = Except.error ()) :
    montoOf r.monto = some 0 ∧
    (assembleLine anio mes hasFlag hasCurrency hasRef cuenta cuo r).get? 17 =
      some (strL "0.00") ∧
    (assembleLine anio mes hasFlag hasCurrency hasRef cuenta cuo r).get? 18 =
      some (strL "0.00") := by
  have h1 : montoOf r.monto = some 0 := by
    rw [hm]
    have he : montoOf (Cell.str s) =
        (match pyFloatStr s with
          | Except.ok v => v
          | Except.error _ => some 0) := rfl
    rw [he, hp]
  have hz : ∀ hf : Bool, ∀ fl : Cell, resolveDH hf fl (some 0) = (some 0, some 0) := by
    intro hf fl
    unfold resolveDH signSplit
    by_cases h0 : hf = true
    · rw [if_pos h0]
      by_cases hD : pyStartsWith (strL "D") (upperL (pyStrip (pyStr fl))) = true
      · rw [if_pos hD]
        decide
      · rw [if_neg hD]
        by_cases hC : pyStartsWith (strL "C") (upperL (pyStrip (pyStr fl))) = true
        · rw [if_pos hC]
          decide
        · rw [if_neg hC, if_neg (by decide : ¬ fgt0 (some 0) = true)]
          decide
    · rw [if_neg h0, if_neg (by decide : ¬ fgt0 (some 0) = true)]
      decide
  have h17 : (assembleLine anio mes hasFlag hasCurrency hasRef cuenta cuo r).get? 17 =
      some (fmtF (resolveDH hasFlag r.flag (montoOf r.monto)).1) := rfl
  have h18 : (assembleLine anio mes hasFlag hasCurrency hasRef cuenta cuo r).get? 18 =
      some (fmtF (resolveDH hasFlag r.flag (montoOf r.monto)).2) := rfl
  rw [h1, hz hasFlag r.flag] at h17 h18
  rw [show fmtF (some (0 : ℚ)) = strL "0.00" from by decide] at h17 h18
  exact ⟨h1, h17, h18⟩

/-- A row whose amount cell is the unparseable string `"abc"`. -/
def rowAbc : DiarioRow :=
  ⟨Cell.str (strL "60"), none, Cell.str [], Cell.str (strL "abc"),
    Cell.null, Cell.str [], Cell.null, Cell.null, Cell.null⟩

/-- Witness for C6 at the amount string `"abc"`. -/
theorem claim_C6_witness :
    montoOf rowAbc.monto = some 0 ∧
    (assembleLine 2020 3 false false false (strL "60") (strL "X") rowAbc).get? 17 =
      some (strL "0.00") ∧
    (assembleLine 2020 3 false false false (strL "60") (strL "X") rowAbc).get? 18 =
      some (strL "0.00") :=
  claim_C6 2020 3 false false false (strL "60") (strL "X") rowAbc (strL "abc") rfl rfl

-- ---------------------------------------------------------------------
-- Claim C7: the description is NOT truncated to 200 characters
-- ---------------------------------------------------------------------

/-- Counterexample to C7 as stated: a 201-character description is emitted
whole — field 16 is not the spec's 200-character truncation. -/
theorem claim_C7_cex :
    (assembleLine 2020 3 false false false (strL "60") (strL "X") rowGlosa).get? 15 =
      some glosa201 ∧
    glosa201.length = 201 ∧
    (assembleLine 2020 3 false false false (strL "60") (strL "X") rowGlosa).get? 15 ≠
      some (specTruncate200 (pyStrip (pyStr rowGlosa.glosa))) := by
  refine ⟨?_, ?_, ?_⟩ <;> decide

/-- Claim C7 (amended): field 16 of the emitted record is the trimmed
free-text description, with no length truncation at all. -/
theorem claim_C7_amended (anio mes : ℕ) (hasFlag hasCurrency hasRef : Bool)
    (cuenta cuo : Str) (r : DiarioRow) :
    (assembleLine anio mes hasFlag hasCurrency hasRef cuenta cuo r).get? 15 =
      some (pyStrip (pyStr r.glosa)) := rfl

-- ---------------------------------------------------------------------
-- Claim C10: the correlative label
-- ---------------------------------------------------------------------

/-- Claim C10: the correlative is `"M"` followed by the journal number's
string form right-stripped of every trailing `'.'` and `'0'` (empty for a
null cell); hence the float `100.0` renders as `"M1"`, and the distinct
journal numbers 10 and 100 collide on the same label. -/
theorem claim_C10 (anio mes : ℕ) (hasFlag hasCurrency hasRef : Bool)
    (cuenta cuo : Str) (r : DiarioRow) :
    (assembleLine anio mes hasFlag hasCurrency hasRef cuenta cuo r).get? 2 =
      some ('M' :: jnumSuffix r.jnum) ∧
    (r.jnum ≠ Cell.null → jnumSuffix r.jnum = rstripDotZero (pyStr r.jnum)) ∧
    jnumSuffix Cell.null = [] ∧
    jnumSuffix (Cell.num 100) = strL "1" ∧
    jnumSuffix (Cell.num 10) = jnumSuffix (Cell.num 100) ∧
    Cell.num 10 ≠ Cell.num 100 := by
  refine ⟨rfl, ?_, rfl, by decide, by decide, by decide⟩
  intro h
  cases hj : r.jnum with
  | null => exact absurd hj h
  | num q => rfl
  | str s => rfl

/-- Witness for C10 at journal number `100.0`. -/
theorem claim_C10_witness :
    (assembleLine 2020 3 false false false (strL "60") (strL "X") rowCien).get? 2 =
      some (strL "M1") ∧
    jnumSuffix rowCien.jnum = rstripDotZero (pyStr rowCien.jnum) := by
  have h := claim_C10 2020 3 false false false (strL "60") (strL "X") rowCien
  constructor
  · rw [h.1]
    decide
  · exact h.2.1 (by decide)

-- ---------------------------------------------------------------------
-- Column resolution (src/scriptPLE.py lines 53-65, 149-168)
-- ---------------------------------------------------------------------

/-- Python `re.sub(r"\s+", " ", s)`: collapse every whitespace run to one space
(fuel-indexed so that it reduces definitionally; one list element is
consumed per step, so the length suffices as fuel). -/
def collapseWSAux : ℕ → Str → Str
  | 0, _ => []
  | _, [] => []
  | fuel + 1, c :: t =>
    if isWS c then ' ' :: collapseWSAux fuel (t.dropWhile isWS)
    else c :: collapseWSAux fuel t

/-- Collapse whitespace runs to single spaces. -/
def collapseWS (l : Str) : Str := collapseWSAux l.length l

/-- The function `canon` (src/scriptPLE.py lines 53-55): lower-case, collapse internal
whitespace, trim. -/
def canon (col : Str) : Str := pyStrip (collapseWS (lowerL col))

/-- Python's `in` on strings: substring test. -/
def isInfixB : Str → Str → Bool
  | n, [] => n.isEmpty
  | n, c :: t => n.isPrefixOf (c :: t) || isInfixB n t

/-- The function `buscar_columna` (src/scriptPLE.py lines 58-65): the first header whose
canonical form contains every canonicalised keyword as a substring. -/
def buscar_columna (cols : List Str) (kws : List Str) : Option Str :=
  cols.find? (fun col => kws.all (fun k => isInfixB (canon k) (canon col)))

/-- Resolution `col_cuenta_diario` (src/scriptPLE.py line 149). -/
def col_cuenta_diario (cols : List Str) : Option Str :=
  buscar_columna cols [strL "cuenta peruana"]

/-- Resolution `col_fecha` (src/scriptPLE.py line 150). -/
def col_fecha (cols : List Str) : Option Str :=
  buscar_columna cols [strL "transaction date"]

/-- Resolution `col_glosa` (src/scriptPLE.py line 153): prefer the literal header
`"Description.1"`, else any header containing `"description"`. -/
def col_glosa (cols : List Str) : Option Str :=
  if strL "Description.1" ∈ cols then some (strL "Description.1")
  else buscar_columna cols [strL "description"]

/-- Resolution `col_monto` (src/scriptPLE.py line 156): transaction amount, falling
back to base amount. -/
def col_monto (cols : List Str) : Option Str :=
  match buscar_columna cols [strL "transaction amount"] with
  | some c => some c
  | none => buscar_columna cols [strL "base amount"]

/-- Resolution `col_journal_num` (src/scriptPLE.py line 157). -/
def col_journal_num (cols : List Str) : Option Str :=
  buscar_columna cols [strL "journal number"]

/-- Resolution `col_journal_type` (src/scriptPLE.py line 158). -/
def col_journal_type (cols : List Str) : Option Str :=
  buscar_columna cols [strL "journal type"]

/-- Resolution `col_currency` (src/scriptPLE.py line 159) — optional downstream. -/
def col_currency (cols : List Str) : Option Str :=
  buscar_columna cols [strL "transaction currency code"]

/-- Resolution `col_ref_doc` (src/scriptPLE.py line 160) — optional downstream. -/
def col_ref_doc (cols : List Str) : Option Str :=
  buscar_columna cols [strL "transaction reference"]

/-- Resolution `col_debe_credit` (src/scriptPLE.py line 155) — optional downstream. -/
def col_debe_credit (cols : List Str) : Option Str :=
  buscar_columna cols [strL "debit/credit"]

/-- The abort test of src/scriptPLE.py lines 162-168: any of the six
required resolutions failed. -/
def requiredMissing (cols : List Str) : Bool :=
  [col_cuenta_diario cols, col_fecha cols, col_glosa cols, col_monto cols,
    col_journal_num cols, col_journal_type cols].any Option.isNone

-- ---------------------------------------------------------------------
-- Chart-of-accounts pipeline (src/scriptPLE.py lines 129-146)
-- ---------------------------------------------------------------------

/-- One raw chart-of-accounts row: the account-code cell and the
display-name cell. -/
structure PCRow where
  codigo : Cell
  nombre : Cell
deriving DecidableEq

/-- The fill `pc_df.fillna("")` (src/scriptPLE.py line 129). -/
def fillna (c : Cell) : Cell :=
  match c with
  | Cell.null => Cell.str []
  | c => c

/-- A chart row after normalisation: source position, normalised code and
trimmed display name (`nombre_temp`, src/scriptPLE.py line 135). -/
structure PCEntry where
  idx : ℕ
  codigo : Str
  nombre : Str
deriving DecidableEq

/-- Normalise one chart row (src/scriptPLE.py lines 129-135). -/
def mkEntry (i : ℕ) (r : PCRow) : PCEntry :=
  ⟨i, normalizar_codigo (fillna r.codigo), pyStrip (pyStr (fillna r.nombre))⟩

/-- The validated entries: normalised rows, those with empty code
discarded (src/scriptPLE.py line 131). -/
def pcValid (rows : List PCRow) : List PCEntry :=
  ((rows.enum).map (fun p => mkEntry p.1 p.2)).filter (fun e => decide (e.codigo ≠ []))

/-- The total order realising the stable sort
`sort_values(by=["codigo_cuenta", "name_len"], ascending=[True, False])`
(src/scriptPLE.py lines 139-142): code ascending, then name length
descending; the source position breaks remaining ties, which is exactly
the stability of pandas' multi-column (lexicographic) sort. -/
def entryLE (a b : PCEntry) : Prop :=
  a.codigo < b.codigo ∨ (a.codigo = b.codigo ∧
    (b.nombre.length < a.nombre.length ∨
      (a.nombre.length = b.nombre.length ∧ a.idx ≤ b.idx)))

instance : DecidableRel entryLE := fun a b => by
  unfold entryLE
  infer_instance

instance : IsTotal PCEntry entryLE := by
  constructor
  intro a b
  rcases lt_trichotomy a.codigo b.codigo with h | h | h
  · exact Or.inl (Or.inl h)
  · have ht : (b.nombre.length < a.nombre.length ∨
        (a.nombre.length = b.nombre.length ∧ a.idx ≤ b.idx)) ∨
        (a.nombre.length < b.nombre.length ∨
          (b.nombre.length = a.nombre.length ∧ b.idx ≤ a.idx)) := by omega
    rcases ht with ht | ht
    · exact Or.inl (Or.inr ⟨h, ht⟩)
    · exact Or.inr (Or.inr ⟨h.symm, ht⟩)
  · exact Or.inr (Or.inl h)

instance : IsTrans PCEntry entryLE := by
  constructor
  intro a b c hab hbc
  rcases hab with hab | ⟨hab, hab2⟩
  · rcases hbc with hbc | ⟨hbc, _⟩
    · exact Or.inl (hab.trans hbc)
    · exact Or.inl (hbc ▸ hab)
  · rcases hbc with hbc | ⟨hbc, hbc2⟩
    · exact Or.inl (hab ▸ hbc)
    · refine Or.inr ⟨hab.trans hbc, ?_⟩
      omega

/-- Pandas `drop_duplicates(subset=["codigo_cuenta"], keep="first")`
(src/scriptPLE.py line 141): keep each row whose code has not been seen
earlier. -/
def dropDupsSeen (seen : List Str) : List PCEntry → List PCEntry
  | [] => []
  | e :: t =>
    if e.codigo ∈ seen then dropDupsSeen seen t
    else e :: dropDupsSeen (e.codigo :: seen) t

/-- The chart-table pipeline (src/scriptPLE.py lines 129-146): normalise,
discard empty codes, stable-sort by (code asc, name length desc), keep the
first row of each code. -/
def pcProcess (rows : List PCRow) : List PCEntry :=
  dropDupsSeen [] (List.insertionSort entryLE (pcValid rows))

-- ---------------------------------------------------------------------
-- Whole-workbook processing (src/scriptPLE.py lines 101-311)
-- ---------------------------------------------------------------------

/-- The update `correlativos_tipo[j_type] += 1` on an association list: the new count
for the key together with the updated map. -/
def bump : List (Str × ℕ) → Str → ℕ × List (Str × ℕ)
  | [], k => (1, [(k, 1)])
  | (k', n) :: t, k =>
    if k' = k then (n + 1, (k', n + 1) :: t)
    else
      let r := bump t k
      (r.1, (k', n) :: r.2)

/-- The per-row loop of `procesar_excel` (src/scriptPLE.py lines 180-293):
skip rows whose normalised account is empty or not in the validated chart,
otherwise bump the per-journal-type counter and assemble the line. -/
def diarioLoop (anio mes : ℕ) (hasFlag hasCurrency hasRef : Bool)
    (valid : List Str) : List (Str × ℕ) → List DiarioRow → List (List Str)
  | _, [] => []
  | ctr, r :: t =>
    let cuenta := normalizar_codigo r.cuenta
    if cuenta = [] ∨ cuenta ∉ valid then
      diarioLoop anio mes hasFlag hasCurrency hasRef valid ctr t
    else
      let jt := upperL (pyStrip (pyStr r.jtype))
      let b := bump ctr jt
      assembleLine anio mes hasFlag hasCurrency hasRef cuenta (jt ++ pad3 b.1) r ::
        diarioLoop anio mes hasFlag hasCurrency hasRef valid b.2 t

/-- One input workbook: the header row of the ledger sheet, its
transaction rows, the chart rows, and the month decoded from the file
name. -/
structure Workbook where
  diarioCols : List Str
  diarioRows : List DiarioRow
  pcRows : List PCRow
  mes : ℕ

/-- The two record sets written for one workbook. -/
structure Output where
  diario : List (List Str)
  plan : List (List Str)
deriving DecidableEq

/-- One chart-of-accounts output record (src/scriptPLE.py lines 300-307):
`periodo_plan | code | name | "01" | | | | "1" |`. -/
def planLine (anio mes : ℕ) (e : PCEntry) : List Str :=
  [natStr anio ++ pad2 mes ++ pad2 (ultimo_dia_mes anio mes), e.codigo, e.nombre,
    strL "01", [], [], [], strL "1", []]

/-- The function `procesar_excel` (src/scriptPLE.py lines 101-311) after sheet reading:
resolve the ledger columns, abort (`none`, no output file) when a required
one is missing, otherwise build both record sets.  The reporting year is
the constant 2020 of line 171. -/
def procesar_excel (wb : Workbook) : Option Output :=
  if requiredMissing wb.diarioCols then none
  else
    let entries := pcProcess wb.pcRows
    some
      { diario :=
          diarioLoop 2020 wb.mes
            (col_debe_credit wb.diarioCols).isSome
            (col_currency wb.diarioCols).isSome
            (col_ref_doc wb.diarioCols).isSome
            (entries.map PCEntry.codigo) [] wb.diarioRows,
        plan := entries.map (planLine 2020 wb.mes) }

-- ---------------------------------------------------------------------
-- Properties of the chart dedup (claim C3)
-- ---------------------------------------------------------------------

theorem entryLE_refl (a : PCEntry) : entryLE a a :=
  Or.inr ⟨rfl, Or.inr ⟨rfl, le_refl _⟩⟩

theorem dropDupsSeen_subset (seen : List Str) (l : List PCEntry) :
    ∀ e ∈ dropDupsSeen seen l, e ∈ l := by
  induction l generalizing seen with
  | nil =>
    intro e he
    simp [dropDupsSeen] at he
  | cons x t ih =>
    intro e he
    by_cases hx : x.codigo ∈ seen
    · rw [dropDupsSeen, if_pos hx] at he
      exact List.mem_cons_of_mem _ (ih seen e he)
    · rw [dropDupsSeen, if_neg hx] at he
      rcases List.mem_cons.mp he with h | h
      · exact h ▸ List.mem_cons_self _ _
      · exact List.mem_cons_of_mem _ (ih _ e h)

theorem dropDupsSeen_not_seen (seen : List Str) (l : List PCEntry) :
    ∀ e ∈ dropDupsSeen seen l, e.codigo ∉ seen := by
  induction l generalizing seen with
  | nil =>
    intro e he
    simp [dropDupsSeen] at he
  | cons x t ih =>
    intro e he
    by_cases hx : x.codigo ∈ seen
    · rw [dropDupsSeen, if_pos hx] at he
      exact ih seen e he
    · rw [dropDupsSeen, if_neg hx] at he
      rcases List.mem_cons.mp he with h | h
      · exact h ▸ hx
      · intro hmem
        exact ih _ e h (List.mem_cons_of_mem _ hmem)

theorem dropDupsSeen_codes_nodup (seen : List Str) (l : List PCEntry) :
    ((dropDupsSeen seen l).map PCEntry.codigo).Nodup := by
  induction l generalizing seen with
  | nil => simp [dropDupsSeen]
  | cons x t ih =>
    by_cases hx : x.codigo ∈ seen
    · rw [dropDupsSeen, if_pos hx]
      exact ih seen
    · rw [dropDupsSeen, if_neg hx]
      rw [List.map_cons, List.nodup_cons]
      refine ⟨?_, ih _⟩
      intro hmem
      rcases List.mem_map.mp hmem with ⟨e, he, hcode⟩
      exact dropDupsSeen_not_seen _ _ e he (hcode ▸ List.mem_cons_self _ _)

theorem dropDupsSeen_complete (seen : List Str) (l : List PCEntry)
    (f : PCEntry) (hf : f ∈ l) (hs : f.codigo ∉ seen) :
    ∃ e ∈ dropDupsSeen seen l, e.codigo = f.codigo := by
  induction l generalizing seen with
  | nil => simp at hf
  | cons x t ih =>
    rcases List.mem_cons.mp hf with hfx | hft
    · have hxs : x.codigo ∉ seen := hfx ▸ hs
      rw [dropDupsSeen, if_neg hxs]
      exact ⟨x, List.mem_cons_self _ _, by rw [hfx]⟩
    · by_cases hx : x.codigo ∈ seen
      · rw [dropDupsSeen, if_pos hx]
        exact ih seen hft hs
      · rw [dropDupsSeen, if_neg hx]
        by_cases hcode : f.codigo = x.codigo
        · exact ⟨x, List.mem_cons_self _ _, hcode.symm⟩
        · have hs2 : f.codigo ∉ x.codigo :: seen := by
            intro h
            rcases List.mem_cons.mp h with h | h
            · exact hcode h
            · exact hs h
          obtain ⟨e, he, hec⟩ := ih (x.codigo :: seen) hft hs2
          exact ⟨e, List.mem_cons_of_mem _ he, hec⟩

theorem dropDupsSeen_min (seen : List Str) (l : List PCEntry)
    (hs : List.Sorted entryLE l) :
    ∀ e ∈ dropDupsSeen seen l, ∀ f ∈ l, f.codigo = e.codigo → entryLE e f := by
  induction l generalizing seen with
  | nil =>
    intro e he
    simp [dropDupsSeen] at he
  | cons x t ih =>
    have hhead := (List.sorted_cons.mp hs).1
    have hst := (List.sorted_cons.mp hs).2
    intro e he f hf hcode
    by_cases hx : x.codigo ∈ seen
    · rw [dropDupsSeen, if_pos hx] at he
      have hne : e.codigo ∉ seen := dropDupsSeen_not_seen seen t e he
      rcases List.mem_cons.mp hf with hfx | hft
      · exact absurd (hcode ▸ (hfx ▸ hx)) hne
      · exact ih seen hst e he f hft hcode
    · rw [dropDupsSeen, if_neg hx] at he
      rcases List.mem_cons.mp he with hex | he'
      · subst hex
        rcases List.mem_cons.mp hf with hfx | hft
        · exact hfx ▸ entryLE_refl e
        · exact hhead f hft
      · have hne : e.codigo ∉ x.codigo :: seen := dropDupsSeen_not_seen _ t e he'
        rcases List.mem_cons.mp hf with hfx | hft
        · exfalso
          apply hne
          rw [← hcode, hfx]
          exact List.mem_cons_self _ _
        · exact ih _ hst e he' f hft hcode

/-- Claim C3: after normalising, discarding empty codes and deduplicating,
the chart table has exactly one entry per distinct normalised code; the
retained entry is one of the source rows, carries the longest trimmed name
of its code group, and among equal-length names the earliest source row
wins. -/
theorem claim_C3 (rows : List PCRow) :
    ((pcProcess rows).map PCEntry.codigo).Nodup ∧
    (∀ e ∈ pcProcess rows, e ∈ pcValid rows) ∧
    (∀ f ∈ pcValid rows, ∃ e ∈ pcProcess rows, e.codigo = f.codigo) ∧
    (∀ e ∈ pcProcess rows, ∀ f ∈ pcValid rows, f.codigo = e.codigo →
      f.nombre.length ≤ e.nombre.length ∧
        (f.nombre.length = e.nombre.length → e.idx ≤ f.idx)) := by
  have hperm : (List.insertionSort entryLE (pcValid rows)).Perm (pcValid rows) :=
    List.perm_insertionSort entryLE (pcValid rows)
  have hsorted : List.Sorted entryLE (List.insertionSort entryLE (pcValid rows)) :=
    List.sorted_insertionSort entryLE (pcValid rows)
  refine ⟨dropDupsSeen_codes_nodup [] _, ?_, ?_, ?_⟩
  · intro e he
    exact hperm.mem_iff.mp (dropDupsSeen_subset [] _ e he)
  · intro f hf
    exact dropDupsSeen_complete [] _ f (hperm.mem_iff.mpr hf) (by simp)
  · intro e he f hf hcode
    have hle : entryLE e f :=
      dropDupsSeen_min [] _ hsorted e he f (hperm.mem_iff.mpr hf) hcode
    rcases hle with h | ⟨_, h2⟩
    · exact absurd (hcode ▸ h) (lt_irrefl _)
    · constructor
      · omega
      · intro hl
        omega

/-- Three chart rows: two share code `"10"` (names of different lengths),
one has numeric code `20`. -/
def pcDemo : List PCRow :=
  [⟨Cell.str (strL "10"), Cell.str (strL "Caja")⟩,
    ⟨Cell.str (strL "10"), Cell.str (strL "Caja y Bancos")⟩,
    ⟨Cell.num 20, Cell.str (strL "Ventas")⟩]

/-- Witness for C3: in the demo chart the longer-named duplicate of code
`"10"` is the one retained. -/
theorem claim_C3_witness :
    (strL "Caja").length ≤ (strL "Caja y Bancos").length ∧
    ((strL "Caja").length = (strL "Caja y Bancos").length →
      (1 : ℕ) ≤ 0) := by
  have h := (claim_C3 pcDemo).2.2.2
    ⟨1, strL "10", strL "Caja y Bancos"⟩ (by decide)
    ⟨0, strL "10", strL "Caja"⟩ (by decide) (by decide)
  exact h

-- ---------------------------------------------------------------------
-- Claim C2: which missing columns abort the workbook
-- ---------------------------------------------------------------------

theorem requiredMissing_iff (cols : List Str) :
    requiredMissing cols = true ↔
      (col_cuenta_diario cols = none ∨ col_fecha cols = none ∨
        col_glosa cols = none ∨ col_monto cols = none ∨
        col_journal_num cols = none ∨ col_journal_type cols = none) := by
  unfold requiredMissing
  simp [Option.isNone_iff_eq_none]

/-- Claim C2 (amended): a workbook aborts with no output exactly when one
of the six required ledger fields — account code, transaction date,
description, amount, journal number, journal type — cannot be resolved;
the debit/credit indicator, document reference and currency columns are
optional and never abort. -/
theorem claim_C2_amended (wb : Workbook) :
    procesar_excel wb = none ↔
      (col_cuenta_diario wb.diarioCols = none ∨ col_fecha wb.diarioCols = none ∨
        col_glosa wb.diarioCols = none ∨ col_monto wb.diarioCols = none ∨
        col_journal_num wb.diarioCols = none ∨
        col_journal_type wb.diarioCols = none) := by
  unfold procesar_excel
  split_ifs with h
  · exact iff_of_true rfl ((requiredMissing_iff _).mp h)
  · refine iff_of_false (by simp) ?_
    intro hd
    exact h ((requiredMissing_iff _).mpr hd)

/-- A ledger header row containing the six required columns but neither a
currency, nor a reference, nor a debit/credit column. -/
def colsDemo : List Str :=
  [strL "Cuenta Peruana", strL "Transaction Date", strL "Description",
    strL "Transaction Amount", strL "Journal Number", strL "Journal Type"]

/-- A workbook over `colsDemo` with no transaction rows and one chart
row. -/
def wbDemo : Workbook :=
  ⟨colsDemo, [], [⟨Cell.str (strL "10"), Cell.str (strL "Caja")⟩], 3⟩

/-- Counterexample to C2 as stated: the currency, document-reference and
debit/credit columns are all unresolvable here, yet the workbook is fully
processed and output is produced. -/
theorem claim_C2_cex :
    col_currency colsDemo = none ∧
    col_ref_doc colsDemo = none ∧
    col_debe_credit colsDemo = none ∧
    (procesar_excel wbDemo).isSome = true := by
  refine ⟨by decide, by decide, by decide, by decide⟩

-- ---------------------------------------------------------------------
-- Claim C8: chart lines are emitted for every deduplicated chart entry
-- ---------------------------------------------------------------------

/-- Claim C8 (amended): for every workbook that is not aborted, one
ChartLine is emitted per deduplicated chart entry — the chart output is a
function of the chart table and the reporting month alone, regardless of
whether any JournalLine references the entry. -/
theorem claim_C8_amended (wb : Workbook) (out : Output)
    (h : procesar_excel wb = some out) :
    out.plan = (pcProcess wb.pcRows).map (planLine 2020 wb.mes) ∧
    out.plan.length = (pcProcess wb.pcRows).length ∧
    (∀ e ∈ pcProcess wb.pcRows, planLine 2020 wb.mes e ∈ out.plan) := by
  unfold procesar_excel at h
  split_ifs at h with hr
  injection h with h2
  subst h2
  refine ⟨rfl, by simp, ?_⟩
  intro e he
  exact List.mem_map_of_mem _ he

/-- The output produced for `wbDemo`: no journal lines, one chart line. -/
def outDemo : Output := ⟨[], [planLine 2020 3 ⟨0, strL "10", strL "Caja"⟩]⟩

/-- Witness for the amended C8 on the demo workbook. -/
theorem claim_C8_amended_witness :
    outDemo.plan = (pcProcess wbDemo.pcRows).map (planLine 2020 wbDemo.mes) ∧
    planLine 2020 wbDemo.mes ⟨0, strL "10", strL "Caja"⟩ ∈ outDemo.plan := by
  have h := claim_C8_amended wbDemo outDemo (by decide)
  exact ⟨h.1, h.2.2 ⟨0, strL "10", strL "Caja"⟩ (by decide)⟩

/-- Counterexample to C8 as stated: `wbDemo` has no transaction rows, so
its chart entry `"10"` is referenced by no JournalLine, yet a ChartLine is
still written for it. -/
theorem claim_C8_cex :
    (procesar_excel wbDemo).map Output.diario = some [] ∧
    (procesar_excel wbDemo).map (fun o => o.plan.length) = some 1 := by
  refine ⟨by decide, by decide⟩


